import Mathlib

/-!
Verification development for `elephant/csd.py` (Current Source Density estimation).

The first part embeds the dispatch/validation layer `CSD`: electrode
coordinates carry rational components plus a flag recording whether a physical
unit is attached (a `quantities` array without units has no `rescale`
attribute, hence the AttributeError path in the source).  Analog signals carry
their sample magnitudes (mV), a start time and a sampling rate.  The kernel
estimator class `KCSD` lives in `elephant.current_source_density`, outside this
repository; its results (the `values()` array and the `estm_x/y/z` axes) are
therefore passed in as an opaque `KernelEstimator` record, universally
quantified in the theorems.  Errors are modelled with an `Except` pipeline that
mirrors the raise statements of the source in their source order.

The second part embeds the forward model `FWD` with its three integrators over
the real numbers (floating point arithmetic is modelled by exact real
arithmetic, its conventional shallow embedding).
-/

set_option autoImplicit false

/-- Python exception kinds raised by `CSD` in `csd.py`.  `indexError` models
`coords[0]` on an empty list, `nameError` models `return output` with `output`
unbound (method not in `all_kernel_methods`). -/
inductive CSDError where
  | attributeError (msg : String)
  | valueError (msg : String)
  | typeError (msg : String)
  | indexError
  | nameError
  deriving DecidableEq, Repr

/-- An electrode coordinate: component values (in mm after rescale) and
whether a physical unit is attached (only unit-tagged quantities have a
`rescale` method). -/
structure Coord where
  components : List ℚ
  hasUnits : Bool
  deriving DecidableEq, Repr, Inhabited

/-- A `neo.AnalogSignal`: sample magnitudes (in mV after rescale), start time,
sampling rate, and the recording-channel coordinate used when the `coords`
argument is `None`. -/
structure AnalogSignal where
  samples : List ℚ
  t_start : ℚ
  sampling_rate : ℚ
  recordingCoordinate : Coord
  deriving DecidableEq, Repr, Inhabited

/-- `coord.rescale(pq.mm)`: succeeds iff a unit is attached, otherwise the
attribute access fails with an AttributeError. -/
def rescaleCoord (c : Coord) : Except CSDError (List ℚ) :=
  if c.hasUnits then Except.ok c.components
  else Except.error (CSDError.attributeError "rescale")

/-- The `coords is None` branch: collect
`ii.recordingchannel.coordinate.rescale(pq.mm)` over the signals; a failure
propagates as a raw AttributeError. -/
def collectRecordingCoords : List AnalogSignal → Except CSDError (List (List ℚ))
  | [] => Except.ok []
  | s :: rest =>
    match rescaleCoord s.recordingCoordinate with
    | Except.error e => Except.error e
    | Except.ok v =>
      match collectRecordingCoords rest with
      | Except.error e => Except.error e
      | Except.ok vs => Except.ok (v :: vs)

/-- The `else` branch of the source: rescale each externally supplied
coordinate, re-raising any AttributeError with the message
`No units given for electrode spatial coordinates`. -/
def rescaleExternalCoords : List Coord → Except CSDError (List (List ℚ))
  | [] => Except.ok []
  | c :: rest =>
    match rescaleCoord c with
    | Except.error _ =>
      Except.error (CSDError.attributeError "No units given for electrode spatial coordinates")
    | Except.ok v =>
      match rescaleExternalCoords rest with
      | Except.error e => Except.error e
      | Except.ok vs => Except.ok (v :: vs)

/-- Coordinate resolution at the top of `CSD`: build from the recording
channels when `coords is None`, otherwise rescale the given list. -/
def resolveCoords (analog_signals : List AnalogSignal) :
    Option (List Coord) → Except CSDError (List (List ℚ))
  | none => collectRecordingCoords analog_signals
  | some cs => rescaleExternalCoords cs

def available_1d : List String := ["KCSD1D"]

def available_2d : List String := ["KCSD2D", "MoIKCSD"]

def available_3d : List String := ["KCSD3D"]

def all_kernel_methods : List String := ["KCSD1D", "KCSD2D", "KCSD3D", "MoIKCSD"]

/-- Python `a and b` on the key collection of a dict: `a and b` returns `a`
when `a` is falsy (empty) and `b` otherwise.  This is the expression
`cv_params.keys() and [Rs, lambdas]` of the source, with dict keys modelled as
the list of key strings. -/
def pyAnd (a b : List String) : List String := if a.isEmpty then a else b

/-- A multi-dimensional numpy array: a shape together with an entry function
from index lists (out-of-range reads are irrelevant to the claims and default
to the function value there). -/
structure NDArray where
  shape : List ℕ
  entry : List ℕ → ℚ

/-- Position of `a` in a list of axis numbers (`list.index`, first match;
0 past the end, which a permutation never hits). -/
def idxOfN : List ℕ → ℕ → ℕ
  | [], _ => 0
  | b :: l, a => if a = b then 0 else idxOfN l a + 1

/-- `ndarray.transpose(perm)`: new axis `j` is old axis `perm[j]`, so the old
index at axis `ax` is the new index at position `perm.index(ax)`. -/
def npTranspose (a : NDArray) (perm : List ℕ) : NDArray where
  shape := perm.map (fun j => a.shape.getD j 0)
  entry := fun idx => a.entry ((List.range a.shape.length).map (fun ax => idx.getD (idxOfN perm ax) 0))

/-- `np.rollaxis(a, -1, 0)`: numpy normalizes the axis to `n-1`, removes it
from `range(n)` and reinserts it at position 0, then transposes. -/
def rollaxisLast (a : NDArray) : NDArray :=
  npTranspose a ((a.shape.length - 1) :: (List.range a.shape.length).filter (fun j => j ≠ a.shape.length - 1))

/-- The externally computed kernel estimator object `k` (class `KCSD1D` etc.
from `elephant.current_source_density`, not part of this repository): its
`values()` array and the grid axes `estm_x`, `estm_y`, `estm_z`. -/
structure KernelEstimator where
  values : NDArray
  estm_x : List ℚ
  estm_y : List ℚ
  estm_z : List ℚ

/-- The returned `neo.AnalogSignalArray`: the rolled estimate, the sampling
metadata copied from the first input signal, and the coordinate annotations. -/
structure CSDOutput where
  signal : NDArray
  t_start : ℚ
  sampling_rate : ℚ
  annotations : List (String × List ℚ)

/-- Construction of the output object at the end of `CSD`: roll the last
(time) axis of `k.values()` to the front, copy `t_start` and `sampling_rate`
from `analog_signals[0]`, and annotate one coordinate axis per spatial
dimension.  (`analog_signals` is provably non-empty on every path reaching
this point, so `headD` never takes its default.) -/
def buildOutput (analog_signals : List AnalogSignal) (dim : ℕ) (k : KernelEstimator) : CSDOutput where
  signal := rollaxisLast k.values
  t_start := (analog_signals.headD default).t_start
  sampling_rate := (analog_signals.headD default).sampling_rate
  annotations :=
    if dim = 1 then [("x_coords", k.estm_x)]
    else if dim = 2 then [("x_coords", k.estm_x), ("y_coords", k.estm_y)]
    else if dim = 3 then [("x_coords", k.estm_x), ("y_coords", k.estm_y), ("z_coords", k.estm_z)]
    else []

/-- The dispatch/validation function `CSD` of `csd.py`.  `cv_params_keys` is
the key list of the `cv_params` dict (its values never influence control flow
in the dispatch layer); `k` stands for the externally constructed estimator,
and `k.cross_validate(**cv_params)` is an external call modelled as a no-op on
the record. -/
def CSD (analog_signals : List AnalogSignal) (coords : Option (List Coord))
    (method : Option String) (cv_params_keys : List String) (k : KernelEstimator) :
    Except CSDError CSDOutput :=
  match resolveCoords analog_signals coords with
  | Except.error e => Except.error e
  | Except.ok coords =>
    match method with
    | none => Except.error (CSDError.valueError "Must specify a method of CSD implementation")
    | some method =>
      if coords.length ≠ analog_signals.length then
        Except.error (CSDError.valueError "Number of signals and coords is not same")
      else if coords.any (fun c => c.length > 3) then
        Except.error (CSDError.valueError "Invalid number of coordinate positions")
      else
        match coords with
        | [] => Except.error CSDError.indexError
        | c0 :: _ =>
          let dim := c0.length
          if dim = 1 ∧ method ∉ available_1d then
            Except.error (CSDError.valueError "Invalid method, Available options are: KCSD1D")
          else if dim = 2 ∧ method ∉ available_2d then
            Except.error (CSDError.valueError "Invalid method, Available options are: KCSD2D, MoIKCSD")
          else if dim = 3 ∧ method ∉ available_3d then
            Except.error (CSDError.valueError "Invalid method, Available options are: KCSD3D")
          else if method ∈ all_kernel_methods then
            if method ∈ all_kernel_methods ∧ cv_params_keys ≠ [] then
              if (pyAnd cv_params_keys ["Rs", "lambdas"]).length ≠ 2 then
                Except.error (CSDError.typeError "Invalid cv_params argument passed")
              else
                Except.ok (buildOutput analog_signals dim k)
            else
              Except.ok (buildOutput analog_signals dim k)
          else
            Except.error CSDError.nameError

/-- The set of method tags `CSD` accepts for electrode dimensionality `d`. -/
def availableFor (d : ℕ) : List String :=
  if d = 1 then available_1d
  else if d = 2 then available_2d
  else if d = 3 then available_3d
  else []

/-- Whether an `Except` computation succeeded. -/
def returnsOk {ε α : Type} : Except ε α → Bool
  | Except.ok _ => true
  | Except.error _ => false

/-!
Forward model `FWD` and its integrators, over the real numbers.
`scipy.integrate.simps` is an external library routine; it is modelled from
its documented semantics: composite Simpson quadrature over the sampled
points, generalized to non-uniform spacing by the standard three-point
formula, with the default `even=avg` correction (average of a trapezoid patch
at either end) when the number of samples is even.
-/

/-- Contribution of one pair of adjacent intervals `(x0,x1,x2)` to the
composite Simpson sum, non-uniform three-point formula. -/
noncomputable def simpsStep (p0 p1 p2 : ℝ × ℝ) : ℝ :=
  let h0 := p1.1 - p0.1
  let h1 := p2.1 - p1.1
  (h0 + h1) / 6 *
    ((2 - h1 / h0) * p0.2 + ((h0 + h1) ^ 2 / (h0 * h1)) * p1.2 + (2 - h0 / h1) * p2.2)

/-- Sum of the Simpson contributions over successive interval pairs of a
sampled curve (list of `(x, y)` points). -/
noncomputable def simpsPairs : List (ℝ × ℝ) → ℝ
  | p0 :: p1 :: rest =>
    match rest with
    | p2 :: _ => simpsStep p0 p1 p2 + simpsPairs rest
    | [] => 0
  | _ => 0

/-- `scipy.integrate.simps(y, x)` (argument order as in scipy: values first,
sample positions second). -/
noncomputable def simps (y x : List ℝ) : ℝ :=
  if y.length % 2 = 1 then simpsPairs (x.zip y)
  else
    let lastDx := x.getLastD 0 - x.dropLast.getLastD 0
    let firstDx := x.getD 1 0 - x.getD 0 0
    let resFirst := simpsPairs (x.dropLast.zip y.dropLast) +
      0.5 * lastDx * (y.getLastD 0 + y.dropLast.getLastD 0)
    let resLast := simpsPairs (x.tail.zip y.tail) +
      0.5 * firstDx * (y.getD 1 0 + y.getD 0 0)
    (resFirst + resLast) / 2

/-- `np.linspace(a, b, n)`: `n` evenly spaced points from `a` to `b`
inclusive. -/
noncomputable def linspace (a b : ℝ) (n : ℕ) : List ℝ :=
  (List.range n).map (fun i => a + (b - a) * i / ((n : ℝ) - 1))

/-- Tissue conductivity, `sigma = 1.0` in `FWD`. -/
noncomputable def fwd_sigma : ℝ := 1.0

/-- Source half-separation, `h = 50.` in `FWD`. -/
noncomputable def fwd_h : ℝ := 50

/-- The distance floor of the 2D/3D integrators: `m[m < 0.0000001] = 0.0000001`
replaces every distance below `1e-7` by `1e-7` and keeps the rest. -/
noncomputable def clampDist (m : ℝ) : ℝ :=
  if m < 0.0000001 then 0.0000001 else m

/-- Electrode-to-grid-point distance in the 2D integrand. -/
noncomputable def dist2D (x y X Y : ℝ) : ℝ :=
  Real.sqrt ((x - X) ^ 2 + (y - Y) ^ 2)

/-- Electrode-to-grid-point distance in the 3D integrand. -/
noncomputable def dist3D (x y z X Y Z : ℝ) : ℝ :=
  Real.sqrt ((x - X) ^ 2 + (y - Y) ^ 2 + (z - Z) ^ 2)

/-- Pointwise 2D integrand: `arcsinh(2h / m) * csd` with the clamped
distance `m`. -/
noncomputable def integrand2D (h x y X Y c : ℝ) : ℝ :=
  Real.arsinh (2 * h / clampDist (dist2D x y X Y)) * c

/-- Pointwise 3D integrand: `csd / m` with the clamped distance `m`. -/
noncomputable def integrand3D (x y z X Y Z c : ℝ) : ℝ :=
  c / clampDist (dist3D x y z X Y Z)

/-- `integrate_1D` of `FWD`: Simpson integral of
`csd * (sqrt((csd_x - x0)^2 + h^2) - abs(csd_x - x0))` against `csd_x`. -/
noncomputable def integrate_1D (x0 : ℝ) (csd_x csd : List ℝ) (h : ℝ) : ℝ :=
  simps (List.zipWith (fun c xv => c * (Real.sqrt ((xv - x0) ^ 2 + h ^ 2) - |xv - x0|)) csd csd_x) csd_x

/-- `integrate_2D` of `FWD`: clamp the distance grid, apply
`arcsinh(2h/m) * csd`, integrate the slices `y[:, i]` against `ylin` and the
results against `xlin` (exactly as the source does). -/
noncomputable def integrate_2D (x y : ℝ) (xlin ylin : List ℝ) (csd : ℕ → ℕ → ℝ)
    (h : ℝ) (X Y : ℕ → ℕ → ℝ) : ℝ :=
  let yv : ℕ → ℕ → ℝ := fun i j => integrand2D h x y (X i j) (Y i j) (csd i j)
  let I : List ℝ := (List.range ylin.length).map (fun i =>
    simps ((List.range xlin.length).map (fun r => yv r i)) ylin)
  simps I xlin

/-- `integrate_3D` of `FWD`: clamp the distance grid, apply `csd / m`,
integrate the slices `z[:, j, i]` against `zlin`, those against `ylin`, and
the results against `xlin` (exactly as the source does; the `xlim`, `ylim`,
`zlim` arguments of the source are unused there and omitted here). -/
noncomputable def integrate_3D (x y z : ℝ) (xlin ylin zlin : List ℝ)
    (csd : ℕ → ℕ → ℕ → ℝ) (X Y Z : ℕ → ℕ → ℕ → ℝ) : ℝ :=
  let zv : ℕ → ℕ → ℕ → ℝ := fun i j kk => integrand3D x y z (X i j kk) (Y i j kk) (Z i j kk) (csd i j kk)
  let Iy : List ℝ := (List.range ylin.length).map (fun j =>
    simps ((List.range zlin.length).map (fun i =>
      simps ((List.range xlin.length).map (fun r => zv r j i)) zlin)) ylin)
  simps Iy xlin

/-- The analytic profile passed to `FWD`; the source calls it with one, two or
three positional arguments depending on the dimensionality, so the profile is
a tagged variant over the three arities. -/
inductive CSDProfile where
  | oneD (f : ℝ → ℝ)
  | twoD (f : ℝ → ℝ → ℝ)
  | threeD (f : ℝ → ℝ → ℝ → ℝ)

/-- Dimensionality inference of `FWD`: 3 when `ele_zz` is supplied, else 2
when `ele_yy` is supplied, else 1. -/
def FWDdim (ele_yy ele_zz : Option (List ℝ)) : ℕ :=
  if ele_zz.isSome then 3
  else if ele_yy.isSome then 2
  else 1

/-- The `dim == 1` branch of `FWD`: charge grid `linspace` over `xlims`,
profile sampled on it, `integrate_1D` per electrode, then `pots /= 2*sigma`.
`none` models the Python TypeError of calling a profile of the wrong arity. -/
noncomputable def FWD1D (csd_profile : CSDProfile) (ele_xx : List ℝ)
    (xlims : ℝ × ℝ) (res : ℕ) : Option (List ℝ) :=
  match csd_profile with
  | CSDProfile.oneD f =>
    let chrg_x := linspace xlims.1 xlims.2 res
    let csd := chrg_x.map f
    some (ele_xx.map (fun x0 => integrate_1D x0 chrg_x csd fwd_h / (2 * fwd_sigma)))
  | _ => none

/-- The `dim == 2` branch of `FWD`: `mgrid` charge grid over
`xlims × ylims`, `integrate_2D` per electrode, then `pots /= 2*pi*sigma`. -/
noncomputable def FWD2D (csd_profile : CSDProfile) (ele_xx : List ℝ)
    (ele_yy : Option (List ℝ)) (xlims ylims : ℝ × ℝ) (res : ℕ) : Option (List ℝ) :=
  match csd_profile, ele_yy with
  | CSDProfile.twoD f, some yy =>
    let x := linspace xlims.1 xlims.2 res
    let y := linspace ylims.1 ylims.2 res
    let chrg_x : ℕ → ℕ → ℝ := fun i _ => x.getD i 0
    let chrg_y : ℕ → ℕ → ℝ := fun _ j => y.getD j 0
    let csd : ℕ → ℕ → ℝ := fun i j => f (chrg_x i j) (chrg_y i j)
    some ((List.range ele_xx.length).map (fun ii =>
      integrate_2D (ele_xx.getD ii 0) (yy.getD ii 0) x y csd fwd_h chrg_x chrg_y /
        (2 * Real.pi * fwd_sigma)))
  | _, _ => none

/-- The `dim == 3` branch of `FWD`: `mgrid` charge grid over
`xlims × ylims × zlims`, `integrate_3D` per electrode, then
`pots /= 4*pi*sigma`. -/
noncomputable def FWD3D (csd_profile : CSDProfile) (ele_xx : List ℝ)
    (ele_yy ele_zz : Option (List ℝ)) (xlims ylims zlims : ℝ × ℝ) (res : ℕ) :
    Option (List ℝ) :=
  match csd_profile, ele_yy, ele_zz with
  | CSDProfile.threeD f, some yy, some zz =>
    let x := linspace xlims.1 xlims.2 res
    let y := linspace ylims.1 ylims.2 res
    let z := linspace zlims.1 zlims.2 res
    let chrg_x : ℕ → ℕ → ℕ → ℝ := fun i _ _ => x.getD i 0
    let chrg_y : ℕ → ℕ → ℕ → ℝ := fun _ j _ => y.getD j 0
    let chrg_z : ℕ → ℕ → ℕ → ℝ := fun _ _ kk => z.getD kk 0
    let csd : ℕ → ℕ → ℕ → ℝ := fun i j kk => f (chrg_x i j kk) (chrg_y i j kk) (chrg_z i j kk)
    some ((List.range ele_xx.length).map (fun ii =>
      integrate_3D (ele_xx.getD ii 0) (yy.getD ii 0) (zz.getD ii 0) x y z csd chrg_x chrg_y chrg_z /
        (4 * Real.pi * fwd_sigma)))
  | _, _, _ => none

/-- The forward model `FWD` of `csd.py`: infer the dimensionality from which
optional electrode coordinate arrays are supplied and run the matching
branch. -/
noncomputable def FWD (csd_profile : CSDProfile) (ele_xx : List ℝ)
    (ele_yy ele_zz : Option (List ℝ)) (xlims ylims zlims : ℝ × ℝ) (res : ℕ) :
    Option (List ℝ) :=
  let dim := FWDdim ele_yy ele_zz
  if dim = 1 then FWD1D csd_profile ele_xx xlims res
  else if dim = 2 then FWD2D csd_profile ele_xx ele_yy xlims ylims res
  else FWD3D csd_profile ele_xx ele_yy ele_zz xlims ylims zlims res

/-- Refinement side for claim C4, written from the words of the spec: the
potential of the electrode at `x0` is the composite-Simpson integral over the
charge grid of `csd(xp) * (sqrt((xp - x0)^2 + h^2) - abs(xp - x0))`, scaled by
`1/(2*sigma)`, with the defaults `sigma = 1.0` and `h = 50`. -/
noncomputable def specSimpson1D (f : ℝ → ℝ) (x0 : ℝ) (xlims : ℝ × ℝ) (res : ℕ) : ℝ :=
  (1 / (2 * 1.0)) *
    simps ((linspace xlims.1 xlims.2 res).map
      (fun xp => f xp * (Real.sqrt ((xp - x0) ^ 2 + (50 : ℝ) ^ 2) - |xp - x0|)))
      (linspace xlims.1 xlims.2 res)

/-! Concrete fixtures used by the witness theorems. -/

def coordA1 : Coord := { components := [0], hasUnits := true }

def coordB1 : Coord := { components := [7], hasUnits := true }

def coordNoUnit : Coord := { components := [0], hasUnits := false }

def coord2A : Coord := { components := [1, 2], hasUnits := true }

def coord2B : Coord := { components := [3, 4], hasUnits := true }

def coord1Mixed : Coord := { components := [3], hasUnits := true }

def sigA : AnalogSignal :=
  { samples := [0, 1], t_start := 5, sampling_rate := 1000, recordingCoordinate := coordA1 }

def sigB : AnalogSignal :=
  { samples := [2, 3], t_start := 6, sampling_rate := 500, recordingCoordinate := coordB1 }

def kEst : KernelEstimator :=
  { values := { shape := [2, 3], entry := fun idx => (idx.headD 0 : ℚ) + 10 * (idx.getD 1 0 : ℚ) }
    estm_x := [0, 1], estm_y := [2], estm_z := [3] }

def outC8 : CSDOutput := buildOutput [sigA, sigB] 2 kEst

def outC9 : CSDOutput := buildOutput [sigA] 1 kEst

/-! Helper lemmas. -/

theorem rescaleExternalCoords_ok (cs : List Coord) (h : ∀ c ∈ cs, c.hasUnits = true) :
    rescaleExternalCoords cs = Except.ok (cs.map (fun c => c.components)) := by
  induction cs with
  | nil => rfl
  | cons c rest ih =>
    have hc : c.hasUnits = true := h c (List.mem_cons_self c rest)
    have hrest := ih (fun x hx => h x (List.mem_cons_of_mem c hx))
    simp [rescaleExternalCoords, rescaleCoord, hc, hrest]

theorem rescaleExternalCoords_err (cs : List Coord) (c : Coord) (hc : c ∈ cs)
    (hnu : c.hasUnits = false) :
    rescaleExternalCoords cs =
      Except.error (CSDError.attributeError "No units given for electrode spatial coordinates") := by
  induction cs with
  | nil => cases hc
  | cons d rest ih =>
    rcases List.mem_cons.mp hc with rfl | hmem
    · simp [rescaleExternalCoords, rescaleCoord, hnu]
    · by_cases hd : d.hasUnits = true
      · simp [rescaleExternalCoords, rescaleCoord, hd, ih hmem]
      · simp only [Bool.not_eq_true] at hd
        simp [rescaleExternalCoords, rescaleCoord, hd]

/-! Claim theorems. -/

/-- Claim C1 (code bug): the cross-validation key guard of `CSD` is dead code.
The source computes `len(cv_params.keys() and [Rs, lambdas]) != 2`; for every
non-empty key collection the Python `and` returns the second operand, whose
length is always 2, so the guard never fires and the documented TypeError is
never raised.  Concretely, a well-formed 1D call with the malformed
`cv_params` key set `[foo]` succeeds instead of being rejected. -/
theorem cv_guard_never_raises :
    (∀ (s : String) (ks : List String), (pyAnd (s :: ks) ["Rs", "lambdas"]).length = 2) ∧
    returnsOk (CSD [sigA] (some [coordA1]) (some "KCSD1D") ["foo"] kEst) = true := by
  constructor
  · intro s ks; rfl
  · rfl

/-- Claim C6: with unit-tagged external coordinates, a mismatch between the
number of electrode coordinates and the number of analog signals makes `CSD`
return a ValueError and no (partial or truncated) result.  (A coordinate
without units would be rejected even earlier, with an AttributeError.) -/
theorem CSD_count_mismatch_rejected (sigs : List AnalogSignal) (cs : List Coord)
    (method : Option String) (cv : List String) (k : KernelEstimator)
    (hunits : ∀ c ∈ cs, c.hasUnits = true)
    (hmis : cs.length ≠ sigs.length) :
    ∃ msg, CSD sigs (some cs) method cv k = Except.error (CSDError.valueError msg) := by
  have hres : resolveCoords sigs (some cs) = Except.ok (cs.map (fun c => c.components)) :=
    rescaleExternalCoords_ok cs hunits
  unfold CSD
  rw [hres]
  cases method with
  | none => exact ⟨"Must specify a method of CSD implementation", rfl⟩
  | some m =>
    dsimp only []
    rw [if_pos (by simpa using hmis)]
    exact ⟨"Number of signals and coords is not same", rfl⟩

/-- Witness for C6, the scenario of the spec: 3 electrodes, 4 signals. -/
theorem CSD_count_mismatch_rejected_witness :
    (∀ c ∈ [coordA1, coordB1, coord2A], c.hasUnits = true) ∧
    ([coordA1, coordB1, coord2A].length ≠ [sigA, sigA, sigA, sigA].length) ∧
    ∃ msg, CSD [sigA, sigA, sigA, sigA] (some [coordA1, coordB1, coord2A]) (some "KCSD1D") [] kEst =
      Except.error (CSDError.valueError msg) :=
  ⟨by decide, by decide,
    CSD_count_mismatch_rejected [sigA, sigA, sigA, sigA] [coordA1, coordB1, coord2A]
      (some "KCSD1D") [] kEst (by decide) (by decide)⟩

/-- Claim C7: if any externally supplied coordinate lacks physical units,
`CSD` returns the AttributeError with message
`No units given for electrode spatial coordinates`, regardless of the method,
the cross-validation mapping and the estimator — i.e. before any estimation
work. -/
theorem CSD_missing_units_rejected (sigs : List AnalogSignal) (cs : List Coord)
    (method : Option String) (cv : List String) (k : KernelEstimator) (c : Coord)
    (hc : c ∈ cs) (hnu : c.hasUnits = false) :
    CSD sigs (some cs) method cv k =
      Except.error (CSDError.attributeError "No units given for electrode spatial coordinates") := by
  have hres : resolveCoords sigs (some cs) =
      Except.error (CSDError.attributeError "No units given for electrode spatial coordinates") :=
    rescaleExternalCoords_err cs c hc hnu
  unfold CSD
  rw [hres]

/-- Witness for C7. -/
theorem CSD_missing_units_rejected_witness :
    (coordNoUnit ∈ [coordA1, coordNoUnit]) ∧ (coordNoUnit.hasUnits = false) ∧
    CSD [sigA, sigB] (some [coordA1, coordNoUnit]) (some "KCSD1D") [] kEst =
      Except.error (CSDError.attributeError "No units given for electrode spatial coordinates") :=
  ⟨by decide, by decide,
    CSD_missing_units_rejected [sigA, sigB] [coordA1, coordNoUnit] (some "KCSD1D") [] kEst
      coordNoUnit (by decide) (by decide)⟩

theorem idxOfN_map_succ (l : List ℕ) (k : ℕ) :
    idxOfN (l.map Nat.succ) (Nat.succ k) = idxOfN l k := by
  induction l with
  | nil => rfl
  | cons b t ih => simp [idxOfN, ih, Nat.succ_inj]

theorem idxOfN_range (m k : ℕ) (h : k < m) : idxOfN (List.range m) k = k := by
  induction m generalizing k with
  | zero => omega
  | succ n ih =>
    rw [List.range_succ_eq_map]
    cases k with
    | zero => rfl
    | succ j =>
      have hj : j < n := by omega
      simp [idxOfN, idxOfN_map_succ, ih j hj]

theorem map_getD_range {α : Type} (l : List α) (d : α) :
    (List.range l.length).map (fun i => l.getD i d) = l := by
  induction l with
  | nil => rfl
  | cons x t ih =>
    rw [List.length_cons, List.range_succ_eq_map, List.map_cons, List.map_map]
    simp only [List.getD_cons_zero, Function.comp_def, List.getD_cons_succ]
    rw [ih]

theorem filter_range_ne_last (m : ℕ) :
    (List.range (m + 1)).filter (fun j => j ≠ m) = List.range m := by
  rw [List.range_succ, List.filter_append]
  have h1 : (List.range m).filter (fun j => decide (j ≠ m)) = List.range m := by
    apply List.filter_eq_self.mpr
    intro a ha
    have : a < m := List.mem_range.mp ha
    simp
    omega
  have h2 : ([m] : List ℕ).filter (fun j => decide (j ≠ m)) = [] := by simp
  rw [h1, h2, List.append_nil]

/-- `np.rollaxis(a, -1, 0)` sends the entry at new index `t :: rest` to the
old entry at index `rest ++ [t]`: the last (time) axis becomes the leading
axis, the others keep their relative order. -/
theorem rollaxisLast_entry (a : NDArray) (m t : ℕ) (rest : List ℕ)
    (hn : a.shape.length = m + 1) (hr : rest.length = m) :
    (rollaxisLast a).entry (t :: rest) = a.entry (rest ++ [t]) := by
  unfold rollaxisLast npTranspose
  dsimp only
  rw [hn, Nat.add_sub_cancel, filter_range_ne_last]
  congr 1
  rw [List.range_succ, List.map_append]
  have hlast : (t :: rest).getD (idxOfN (m :: List.range m) m) 0 = t := by
    simp [idxOfN]
  have hmain : (List.range m).map
      (fun ax => (t :: rest).getD (idxOfN (m :: List.range m) ax) 0) = rest := by
    have hcong : ∀ ax ∈ List.range m,
        (t :: rest).getD (idxOfN (m :: List.range m) ax) 0 = rest.getD ax 0 := by
      intro ax hax
      have haxm : ax < m := List.mem_range.mp hax
      have : idxOfN (m :: List.range m) ax = ax + 1 := by
        simp [idxOfN, Nat.ne_of_lt haxm, idxOfN_range m ax haxm]
      rw [this, List.getD_cons_succ]
    rw [List.map_congr_left hcong]
    have := map_getD_range rest 0
    rw [hr] at this
    exact this
  rw [hmain]
  simp only [List.map_cons, List.map_nil]
  rw [hlast]

/-- Shape counterpart: the rolled shape is the last extent followed by the
other extents in order. -/
theorem rollaxisLast_shape (a : NDArray) (m : ℕ) (hn : a.shape.length = m + 1) :
    (rollaxisLast a).shape = a.shape.getD m 0 :: a.shape.dropLast := by
  unfold rollaxisLast npTranspose
  dsimp only
  rw [hn, Nat.add_sub_cancel, filter_range_ne_last, List.map_cons]
  congr 1
  have hfull : (List.range (m + 1)).map (fun i => a.shape.getD i 0) = a.shape := by
    rw [show m + 1 = a.shape.length from hn.symm]
    exact map_getD_range a.shape 0
  rw [List.range_succ, List.map_append] at hfull
  have hne : a.shape ≠ [] := by
    intro h0
    rw [h0] at hn
    cases hn
  have hsplit : a.shape = a.shape.dropLast ++ [a.shape.getLast hne] :=
    (List.dropLast_append_getLast hne).symm
  have hcomb := hfull.trans hsplit
  have hlens : ((List.range m).map (fun i => a.shape.getD i 0)).length =
      a.shape.dropLast.length := by
    simp [List.length_dropLast, hn]
  exact (List.append_inj hcomb hlens).1

/-- Inversion of a successful `CSD` call: the result is always the object
built by `buildOutput` from the estimator and the resolved coordinates. -/
theorem CSD_ok_build (sigs : List AnalogSignal) (coords : Option (List Coord))
    (method : Option String) (cv : List String) (k : KernelEstimator) (out : CSDOutput)
    (h : CSD sigs coords method cv k = Except.ok out) :
    ∃ c0 crest, resolveCoords sigs coords = Except.ok (c0 :: crest) ∧
      out = buildOutput sigs c0.length k := by
  unfold CSD at h
  cases hres : resolveCoords sigs coords with
  | error e => rw [hres] at h; simp at h
  | ok cs =>
    rw [hres] at h
    cases method with
    | none => simp at h
    | some m =>
      dsimp only [] at h
      by_cases h1 : cs.length ≠ sigs.length
      · rw [if_pos h1] at h; simp at h
      · rw [if_neg h1] at h
        by_cases h2 : cs.any (fun c => c.length > 3) = true
        · rw [if_pos h2] at h; simp at h
        · rw [if_neg h2] at h
          cases cs with
          | nil => simp at h
          | cons c0 crest =>
            dsimp only [] at h
            by_cases h3 : c0.length = 1 ∧ m ∉ available_1d
            · rw [if_pos h3] at h; simp at h
            · rw [if_neg h3] at h
              by_cases h4 : c0.length = 2 ∧ m ∉ available_2d
              · rw [if_pos h4] at h; simp at h
              · rw [if_neg h4] at h
                by_cases h5 : c0.length = 3 ∧ m ∉ available_3d
                · rw [if_pos h5] at h; simp at h
                · rw [if_neg h5] at h
                  by_cases h6 : m ∈ all_kernel_methods
                  · rw [if_pos h6] at h
                    by_cases h7 : m ∈ all_kernel_methods ∧ cv ≠ []
                    · rw [if_pos h7] at h
                      by_cases h8 : (pyAnd cv ["Rs", "lambdas"]).length ≠ 2
                      · rw [if_pos h8] at h; simp at h
                      · rw [if_neg h8] at h
                        exact ⟨c0, crest, rfl, (Except.ok.inj h).symm⟩
                    · rw [if_neg h7] at h
                      exact ⟨c0, crest, rfl, (Except.ok.inj h).symm⟩
                  · rw [if_neg h6] at h; simp at h

theorem mem_all_of_mem_1d {m : String} (h : m ∈ available_1d) : m ∈ all_kernel_methods := by
  simp only [available_1d, List.mem_singleton] at h
  subst h; decide

theorem mem_all_of_mem_2d {m : String} (h : m ∈ available_2d) : m ∈ all_kernel_methods := by
  simp only [available_2d, List.mem_cons, List.mem_singleton, List.not_mem_nil, or_false] at h
  rcases h with rfl | rfl <;> decide

theorem mem_all_of_mem_3d {m : String} (h : m ∈ available_3d) : m ∈ all_kernel_methods := by
  simp only [available_3d, List.mem_singleton] at h
  subst h; decide

/-- Claim C2: for `d` in `{1,2,3}` taken from the first electrode, with
consistently `d`-dimensioned unit-tagged coordinates matching the signal
count, `CSD` accepts exactly the method tags of the dimensionality's allowed
set (1D: KCSD1D; 2D: KCSD2D, MoIKCSD; 3D: KCSD3D) and returns a ValueError
for every other tag. -/
theorem CSD_method_dim_gate (d : ℕ) (sigs : List AnalogSignal) (c0 : Coord)
    (crest : List Coord) (method : String) (k : KernelEstimator)
    (hd : d = 1 ∨ d = 2 ∨ d = 3)
    (hlen : (c0 :: crest).length = sigs.length)
    (hdim : ∀ c ∈ c0 :: crest, c.components.length = d)
    (hunits : ∀ c ∈ c0 :: crest, c.hasUnits = true) :
    (method ∈ availableFor d →
      ∃ out, CSD sigs (some (c0 :: crest)) (some method) [] k = Except.ok out) ∧
    (method ∉ availableFor d →
      ∃ msg, CSD sigs (some (c0 :: crest)) (some method) [] k =
        Except.error (CSDError.valueError msg)) := by
  have hres : resolveCoords sigs (some (c0 :: crest)) =
      Except.ok ((c0 :: crest).map (fun c => c.components)) :=
    rescaleExternalCoords_ok _ hunits
  have hc0 : c0.components.length = d := hdim c0 (List.mem_cons_self _ _)
  have hlen2 : (c0.components :: crest.map (fun c => c.components)).length = sigs.length := by
    simpa using hlen
  have hany : (c0.components :: crest.map (fun c => c.components)).any
      (fun c => c.length > 3) = false := by
    simp only [List.any_eq_false]
    intro x hx
    rcases List.mem_cons.mp hx with rfl | hx2
    · simp [hc0]
      rcases hd with rfl | rfl | rfl <;> omega
    · rcases List.mem_map.mp hx2 with ⟨c, hcmem, rfl⟩
      have hcd := hdim c (List.mem_cons_of_mem _ hcmem)
      simp [hcd]
      rcases hd with rfl | rfl | rfl <;> omega
  have hred : CSD sigs (some (c0 :: crest)) (some method) [] k =
      (if d = 1 ∧ method ∉ available_1d then
        Except.error (CSDError.valueError "Invalid method, Available options are: KCSD1D")
      else if d = 2 ∧ method ∉ available_2d then
        Except.error (CSDError.valueError "Invalid method, Available options are: KCSD2D, MoIKCSD")
      else if d = 3 ∧ method ∉ available_3d then
        Except.error (CSDError.valueError "Invalid method, Available options are: KCSD3D")
      else if method ∈ all_kernel_methods then Except.ok (buildOutput sigs d k)
      else Except.error CSDError.nameError) := by
    unfold CSD
    rw [hres]
    simp only [List.map_cons]
    rw [if_neg (not_ne_iff.mpr hlen2), if_neg (by simp [hany]), hc0,
      if_neg (show ¬(method ∈ all_kernel_methods ∧ ([] : List String) ≠ []) from fun hx => hx.2 rfl)]
  constructor
  · intro hmem
    rcases hd with rfl | rfl | rfl
    · have hmem1 : method ∈ available_1d := by simpa [availableFor] using hmem
      rw [hred, if_neg (fun hx => hx.2 hmem1), if_neg (by simp), if_neg (by simp),
        if_pos (mem_all_of_mem_1d hmem1)]
      exact ⟨_, rfl⟩
    · have hmem2 : method ∈ available_2d := by simpa [availableFor] using hmem
      rw [hred, if_neg (by simp), if_neg (fun hx => hx.2 hmem2), if_neg (by simp),
        if_pos (mem_all_of_mem_2d hmem2)]
      exact ⟨_, rfl⟩
    · have hmem3 : method ∈ available_3d := by simpa [availableFor] using hmem
      rw [hred, if_neg (by simp), if_neg (by simp), if_neg (fun hx => hx.2 hmem3),
        if_pos (mem_all_of_mem_3d hmem3)]
      exact ⟨_, rfl⟩
  · intro hnot
    rcases hd with rfl | rfl | rfl
    · have hnot1 : method ∉ available_1d := by simpa [availableFor] using hnot
      rw [hred, if_pos ⟨rfl, hnot1⟩]
      exact ⟨_, rfl⟩
    · have hnot2 : method ∉ available_2d := by simpa [availableFor] using hnot
      rw [hred, if_neg (by simp), if_pos ⟨rfl, hnot2⟩]
      exact ⟨_, rfl⟩
    · have hnot3 : method ∉ available_3d := by simpa [availableFor] using hnot
      rw [hred, if_neg (by simp), if_neg (by simp), if_pos ⟨rfl, hnot3⟩]
      exact ⟨_, rfl⟩

/-- Witness for C2: a 1D electrode set with the matching tag KCSD1D is
accepted. -/
theorem CSD_method_dim_gate_witness :
    ((1 : ℕ) = 1 ∨ (1 : ℕ) = 2 ∨ (1 : ℕ) = 3) ∧
    ([coordA1].length = [sigA].length) ∧
    (∀ c ∈ [coordA1], c.components.length = 1) ∧
    (∀ c ∈ [coordA1], c.hasUnits = true) ∧
    ("KCSD1D" ∈ availableFor 1) ∧
    ∃ out, CSD [sigA] (some [coordA1]) (some "KCSD1D") [] kEst = Except.ok out :=
  ⟨Or.inl rfl, by decide, by decide, by decide, by decide,
    (CSD_method_dim_gate 1 [sigA] coordA1 [] "KCSD1D" kEst (Or.inl rfl) (by decide)
      (by decide) (by decide)).1 (by decide)⟩

/-- Claim C8: on every successful `CSD` call the returned estimate is
`np.rollaxis(values, -1, 0)` of the raw estimate: the per-time (last) axis of
the raw estimate becomes the leading axis, and the spatial axes keep their
relative order (entry at `t :: rest` is the raw entry at `rest ++ [t]`). -/
theorem CSD_time_axis_leading (sigs : List AnalogSignal) (coords : Option (List Coord))
    (method : Option String) (cv : List String) (k : KernelEstimator) (out : CSDOutput)
    (h : CSD sigs coords method cv k = Except.ok out) :
    out.signal = rollaxisLast k.values ∧
    ∀ m, k.values.shape.length = m + 1 →
      (out.signal.shape = k.values.shape.getD m 0 :: k.values.shape.dropLast ∧
       ∀ t rest, rest.length = m → out.signal.entry (t :: rest) = k.values.entry (rest ++ [t])) := by
  obtain ⟨c0, crest, hres, rfl⟩ := CSD_ok_build sigs coords method cv k out h
  refine ⟨rfl, fun m hm => ⟨?_, fun t rest hr => ?_⟩⟩
  · exact rollaxisLast_shape k.values m hm
  · exact rollaxisLast_entry k.values m t rest hm hr

/-- Witness for C8 on a concrete successful 2D call with a 2x3 raw
estimate. -/
theorem CSD_time_axis_leading_witness :
    CSD [sigA, sigB] (some [coord2A, coord2B]) (some "KCSD2D") [] kEst = Except.ok outC8 ∧
    kEst.values.shape.length = 1 + 1 ∧ ([0] : List ℕ).length = 1 ∧
    outC8.signal.shape = kEst.values.shape.getD 1 0 :: kEst.values.shape.dropLast ∧
    outC8.signal.entry (7 :: [0]) = kEst.values.entry ([0] ++ [7]) := by
  have main := CSD_time_axis_leading [sigA, sigB] (some [coord2A, coord2B]) (some "KCSD2D")
    [] kEst outC8 rfl
  exact ⟨rfl, rfl, rfl, (main.2 1 rfl).1, (main.2 1 rfl).2 7 [0] rfl⟩

/-- Claim C9: every successful `CSD` call copies `t_start` and
`sampling_rate` of the first input signal unchanged onto the output, and
annotates exactly one coordinate-axis array per spatial dimension: `x_coords`
for 1D, `x_coords, y_coords` for 2D, `x_coords, y_coords, z_coords` for 3D
(dimensionality taken from the first resolved electrode coordinate). -/
theorem CSD_metadata_carried (sigs : List AnalogSignal) (coords : Option (List Coord))
    (method : Option String) (cv : List String) (k : KernelEstimator) (out : CSDOutput)
    (s0 : AnalogSignal) (srest : List AnalogSignal) (c0 : List ℚ) (crest : List (List ℚ))
    (h : CSD sigs coords method cv k = Except.ok out)
    (hres : resolveCoords sigs coords = Except.ok (c0 :: crest))
    (hs : sigs = s0 :: srest) :
    out.t_start = s0.t_start ∧ out.sampling_rate = s0.sampling_rate ∧
    (c0.length = 1 → out.annotations.map Prod.fst = ["x_coords"]) ∧
    (c0.length = 2 → out.annotations.map Prod.fst = ["x_coords", "y_coords"]) ∧
    (c0.length = 3 → out.annotations.map Prod.fst = ["x_coords", "y_coords", "z_coords"]) := by
  obtain ⟨c0', crest', hres', rfl⟩ := CSD_ok_build sigs coords method cv k out h
  rw [hres] at hres'
  obtain ⟨hc, -⟩ := List.cons.inj (Except.ok.inj hres')
  subst hs
  subst hc
  refine ⟨by simp [buildOutput], by simp [buildOutput], ?_, ?_, ?_⟩
  · intro h1; simp [buildOutput, h1]
  · intro h2; simp [buildOutput, h2]
  · intro h3; simp [buildOutput, h3]

/-- Witness for C9 on a concrete successful 1D call. -/
theorem CSD_metadata_carried_witness :
    CSD [sigA] (some [coordA1]) (some "KCSD1D") [] kEst = Except.ok outC9 ∧
    resolveCoords [sigA] (some [coordA1]) = Except.ok ([(0 : ℚ)] :: []) ∧
    ([sigA] : List AnalogSignal) = [sigA] ∧
    outC9.t_start = sigA.t_start ∧ outC9.sampling_rate = sigA.sampling_rate ∧
    (([(0 : ℚ)] : List ℚ).length = 1) ∧
    outC9.annotations.map Prod.fst = ["x_coords"] := by
  have main := CSD_metadata_carried [sigA] (some [coordA1]) (some "KCSD1D") [] kEst outC9
    sigA [] [(0 : ℚ)] [] rfl rfl rfl
  exact ⟨rfl, rfl, rfl, main.1, main.2.1, rfl, main.2.2.1 rfl⟩

/-- Claim C10 (implicit behaviour): the coordinate validation only checks
each electrode individually for at most 3 components and takes the
dimensionality from the first electrode alone, so a call whose electrodes
have differing coordinate lengths (first has 2 components, second has 1) is
not rejected: it succeeds. -/
theorem CSD_mixed_dims_accepted :
    returnsOk (CSD [sigA, sigB] (some [coord2A, coord1Mixed]) (some "KCSD2D") [] kEst) = true := by
  rfl

theorem zipWith_map_left {α β γ : Type} (l : List α) (f : α → β) (g : β → α → γ) :
    List.zipWith g (l.map f) l = l.map (fun x => g (f x) x) := by
  induction l with
  | nil => rfl
  | cons x t ih => simp [ih]

/-- Claim C5: `FWD` infers the dimensionality from which optional coordinate
arrays are supplied: with `ele_zz` present the computation is the 3D branch
(whatever `ele_yy` is), with only `ele_yy` present the 2D branch, with
neither the 1D branch. -/
theorem FWD_dim_dispatch (p : CSDProfile) (ele_xx : List ℝ) (yy zz : List ℝ)
    (oy : Option (List ℝ)) (xl yl zl : ℝ × ℝ) (res : ℕ) :
    FWD p ele_xx oy (some zz) xl yl zl res = FWD3D p ele_xx oy (some zz) xl yl zl res ∧
    FWD p ele_xx (some yy) none xl yl zl res = FWD2D p ele_xx (some yy) xl yl res ∧
    FWD p ele_xx none none xl yl zl res = FWD1D p ele_xx xl res :=
  ⟨rfl, rfl, rfl⟩

/-- Claim C4: in the 1D case (`ele_yy` and `ele_zz` absent), each electrode
potential returned by `FWD` is the composite-Simpson integral over the charge
grid of `csd(xp) * (sqrt((xp - x0)^2 + h^2) - abs(xp - x0))` scaled by
`1/(2*sigma)`, with the defaults `sigma = 1.0` and `h = 50`
(`specSimpson1D` is written from the words of the spec). -/
theorem FWD_1D_simpson_potentials (f : ℝ → ℝ) (ele_xx : List ℝ)
    (xlims ylims zlims : ℝ × ℝ) (res : ℕ) :
    FWD (CSDProfile.oneD f) ele_xx none none xlims ylims zlims res =
      some (ele_xx.map (fun x0 => specSimpson1D f x0 xlims res)) := by
  show FWD1D (CSDProfile.oneD f) ele_xx xlims res = _
  unfold FWD1D
  dsimp only
  refine congrArg some (congrArg (fun g => ele_xx.map g) (funext fun x0 => ?_))
  simp only [integrate_1D, specSimpson1D, fwd_h, fwd_sigma, zipWith_map_left]
  ring

/-- Claim C3: the 2D/3D integrands of `FWD` clamp every distance below `1e-7`
up to `1e-7` (and keep larger distances), so the quantity fed to the
`arcsinh` (2D) and the reciprocal (3D) is bounded away from zero; in
particular, at an electrode coinciding exactly with a charge-grid point the
distance is 0 and the integrand takes the finite values
`arcsinh(2h/1e-7)*csd` and `csd/1e-7`. -/
theorem FWD_singularity_floor :
    (∀ m : ℝ, clampDist m = max m 0.0000001) ∧
    (∀ m : ℝ, (0.0000001 : ℝ) ≤ clampDist m ∧ 0 < clampDist m) ∧
    (∀ x y : ℝ, dist2D x y x y = 0 ∧ clampDist (dist2D x y x y) = 0.0000001) ∧
    (∀ x y z : ℝ, dist3D x y z x y z = 0 ∧ clampDist (dist3D x y z x y z) = 0.0000001) ∧
    (∀ h c x y : ℝ, integrand2D h x y x y c = Real.arsinh (2 * h / 0.0000001) * c) ∧
    (∀ c x y z : ℝ, integrand3D x y z x y z c = c / 0.0000001) := by
  have hpos : (0 : ℝ) < 0.0000001 := by norm_num
  have hclampmax : ∀ m : ℝ, clampDist m = max m 0.0000001 := by
    intro m
    unfold clampDist
    rcases lt_or_le m 0.0000001 with hlt | hle
    · rw [if_pos hlt, max_eq_right hlt.le]
    · rw [if_neg (not_lt.mpr hle), max_eq_left hle]
  have hge : ∀ m : ℝ, (0.0000001 : ℝ) ≤ clampDist m := by
    intro m; rw [hclampmax]; exact le_max_right _ _
  have hd2 : ∀ x y : ℝ, dist2D x y x y = 0 := by
    intro x y; unfold dist2D; simp
  have hd3 : ∀ x y z : ℝ, dist3D x y z x y z = 0 := by
    intro x y z; unfold dist3D; simp
  have hclamp0 : clampDist 0 = 0.0000001 := by
    unfold clampDist; rw [if_pos hpos]
  refine ⟨hclampmax, fun m => ⟨hge m, lt_of_lt_of_le hpos (hge m)⟩,
    fun x y => ⟨hd2 x y, by rw [hd2, hclamp0]⟩,
    fun x y z => ⟨hd3 x y z, by rw [hd3, hclamp0]⟩,
    fun h c x y => ?_, fun c x y z => ?_⟩
  · unfold integrand2D; rw [hd2, hclamp0]
  · unfold integrand3D; rw [hd3, hclamp0]
